import Mathlib

/-!
Verification of the IoT-KPI-Dashboard ingestion and KPI pipeline.

Shallow embedding of the pipeline's core functions:
* `Collector` — src/src/collectors/device_collector.py
  (`_update_device_status`, `_collect_device_metrics`)
* `DeviceExtract` — src/device_extract.py
  (`extract_devices`, `save_devices_to_database`)
* `DagExtract` — src/dags/device_extract.py (`extract_devices`)
* `Kpis` — src/src/api/routes/kpis.py
  (`_calculate_uptime_percentage`, `_calculate_availability`)
* `Dag` — src/dags/iot_kpi_dag.py (`aggregate_status` inline SQL)

Datetimes are modelled as natural-number epoch seconds; durations that the
code derives by subtraction are integers; float results are rationals.
-/

namespace Collector

/-- A device row as used by the collector: SQLAlchemy `Device` with the
fields the collector reads/writes.  `rss_meta` models
`device.device_metadata.get("rss_value", -70) if device.device_metadata else -70`:
`none` stands for a missing metadata dict or missing key (default -70). -/
structure Device where
  id : Nat
  status : String
  last_seen : Option Nat
  rss_meta : Option Int
deriving Repr, DecidableEq

/-- A `DeviceStatusHistory` row (status interval). -/
structure DeviceStatusHistory where
  device_id : Nat
  status : String
  started_at : Nat
  ended_at : Option Nat
  duration_seconds : Option Int
deriving Repr, DecidableEq

/-- The `raw_payload` column of a telemetry log row:
`device_data if device_data else {"status": "no_response"}` — either the
simulated metrics dict (whose contents no claim depends on) or the
no-response marker object. -/
inductive RawPayload where
  | deviceData
  | noResponse
deriving Repr, DecidableEq

/-- A `TelemetryLog` row as inserted by `_collect_device_metrics`. -/
structure TelemetryLog where
  device_id : Nat
  timestamp : Nat
  rss_value : Int
  raw_payload : RawPayload
deriving Repr, DecidableEq

/-- The part of `_update_device_status` that closes the currently open
interval: `query(DeviceStatusHistory).filter(device_id == dev.id,
ended_at.is_(None)).first()` followed by setting `ended_at = timestamp` and
`duration_seconds = int((ended_at - started_at).total_seconds())` on that
first matching row, if any. -/
def closeFirstOpen (did timestamp : Nat) :
    List DeviceStatusHistory → List DeviceStatusHistory
  | [] => []
  | r :: rs =>
    if r.device_id = did ∧ r.ended_at = none then
      { r with ended_at := some timestamp,
               duration_seconds := some ((timestamp : Int) - (r.started_at : Int)) } :: rs
    else
      r :: closeFirstOpen did timestamp rs

/-- `DeviceCollector._update_device_status(device, is_responding, timestamp)`:
derive the new status, no-op when unchanged, otherwise close the open
interval (if any), append a fresh open interval and update the device's
status field. -/
def update_device_status (dev : Device) (hist : List DeviceStatusHistory)
    (is_responding : Bool) (timestamp : Nat) :
    Device × List DeviceStatusHistory :=
  let new_status := if is_responding then "active" else "inactive"
  if dev.status = new_status then
    (dev, hist)
  else
    let closed := closeFirstOpen dev.id timestamp hist
    ({ dev with status := new_status },
     closed ++ [⟨dev.id, new_status, timestamp, none, none⟩])

/-- Result of one `_collect_device_metrics` pass: the updated device, the
status-history table and the telemetry-log table. -/
structure CollectResult where
  device : Device
  hist : List DeviceStatusHistory
  logs : List TelemetryLog
deriving Repr, DecidableEq

/-- `DeviceCollector._collect_device_metrics(device)` with the outcome of
`_simulate_device_data` supplied as the `device_data` argument (`none`
models the no-response case) and `datetime.utcnow()` as `timestamp`.
Inserts one telemetry log row, then either refreshes `last_seen` and
signals responding, or — on no data — signals not-responding only when the
time since `last_seen` exceeds 300 seconds (infinite when `last_seen` is
null). -/
def collect_device_metrics (dev : Device) (hist : List DeviceStatusHistory)
    (logs : List TelemetryLog) (device_data : Option Unit) (timestamp : Nat) :
    CollectResult :=
  let rss := dev.rss_meta.getD (-70)
  let payload : RawPayload :=
    match device_data with
    | some _ => .deviceData
    | none => .noResponse
  let logs1 := logs ++ [⟨dev.id, timestamp, rss, payload⟩]
  match device_data with
  | some _ =>
    let dev1 := { dev with last_seen := some timestamp }
    let s := update_device_status dev1 hist true timestamp
    ⟨s.1, s.2, logs1⟩
  | none =>
    let should_be_inactive : Bool :=
      match dev.last_seen with
      | some l => decide ((300 : Int) < (timestamp : Int) - (l : Int))
      | none => true
    if should_be_inactive then
      let s := update_device_status dev hist false timestamp
      ⟨s.1, s.2, logs1⟩
    else
      ⟨dev, hist, logs1⟩

/-- Number of open (null `ended_at`) status-history rows for one device. -/
def openCount (did : Nat) (hist : List DeviceStatusHistory) : Nat :=
  (hist.filter fun r => decide (r.device_id = did ∧ r.ended_at = none)).length

/-- Feed a finite sequence of `(is_responding, timestamp)` signals through
the status reconciler. -/
def runSignals (dev : Device) (hist : List DeviceStatusHistory) :
    List (Bool × Nat) → Device × List DeviceStatusHistory
  | [] => (dev, hist)
  | (b, t) :: rest =>
    let s := update_device_status dev hist b t
    runSignals s.1 s.2 rest

/-- Pointwise closing of an open row: the row-level effect of
`_update_device_status` on the open interval it finds. -/
def closeIfOpen (did ts : Nat) (r : DeviceStatusHistory) : DeviceStatusHistory :=
  if r.device_id = did ∧ r.ended_at = none then
    { r with ended_at := some ts,
             duration_seconds := some ((ts : Int) - (r.started_at : Int)) }
  else r

end Collector

namespace Extract

/-- One device record of the listing API response, with the fields the
extractors read.  `createdTime` is the parsed creation instant; `none`
models a missing `createdTime` key or one that fails ISO parsing. -/
structure ApiRecord where
  rid : String
  createdTime : Option Nat
deriving Repr, DecidableEq

/-- The JSON body of one successful listing-API page:
`data`, `totalElements`, `totalPages`, `hasNext`. -/
structure ApiPage where
  data : List ApiRecord
  totalElements : Nat
  totalPages : Nat
  hasNext : Bool
deriving Repr, DecidableEq

/-- Outcome of one `requests.get` on a page: HTTP 200 with a JSON body,
a non-200 status, a 200 body that fails JSON decoding, a timeout, or
another request exception. -/
inductive ApiResponse where
  | ok (page : ApiPage)
  | httpError (status : Nat)
  | badJson
  | timeout
  | requestError
deriving Repr, DecidableEq

/-- The dictionary both extractors return:
`{"data": ..., "totalElements": len(...), "pagesProcessed": page + 1}`. -/
structure ExtractResult where
  data : List ApiRecord
  totalElements : Nat
  pagesProcessed : Nat
deriving Repr, DecidableEq

/-- Is a record strictly newer than the `since` instant?  A record with a
missing or unparseable creation time is never newer. -/
def isNewer (t : Nat) (r : ApiRecord) : Bool :=
  match r.createdTime with
  | some ct => decide (t < ct)
  | none => false

/-- `createdTime` with the `none` default used to order records. -/
def timeOf (r : ApiRecord) : Nat := r.createdTime.getD 0

end Extract

namespace DeviceExtract

open Extract

/-- The per-page `since` filter loop of src/device_extract.py
`extract_devices`: walk the page's records in order; a record with missing
or invalid `createdTime` is logged and skipped; a record strictly newer
than `since` is accumulated; the first record not strictly newer stops the
walk and sets the early-stop flag.  Returns the accumulated records and
the stop flag. -/
def filterSince (sinceDt : Nat) : List ApiRecord → List ApiRecord × Bool
  | [] => ([], false)
  | r :: rs =>
    match r.createdTime with
    | none => filterSince sinceDt rs
    | some t =>
      if sinceDt < t then
        let rec' := filterSince sinceDt rs
        (r :: rec'.1, rec'.2)
      else
        ([], true)

/-- The paging loop of src/device_extract.py `extract_devices`.  `api`
gives the response for each page index; `fuel` bounds the number of
iterations (the Python loop can iterate unboundedly against an adversarial
provider; every theorem below holds for every sufficient fuel).  Any
non-200 status, JSON decode failure, timeout or request exception breaks
the loop, returning what was accumulated.  An empty page breaks.  With
`since` active, the page is filtered and the early-stop flag breaks.
Otherwise paging continues while `hasNext` and `page < totalPages - 1`. -/
def extractLoop (api : Nat → ApiResponse) (sinceDt : Option Nat) :
    Nat → Nat → List ApiRecord → ExtractResult
  | 0, page, acc => ⟨acc, acc.length, page + 1⟩
  | fuel + 1, page, acc =>
    match api page with
    | .httpError _ => ⟨acc, acc.length, page + 1⟩
    | .badJson => ⟨acc, acc.length, page + 1⟩
    | .timeout => ⟨acc, acc.length, page + 1⟩
    | .requestError => ⟨acc, acc.length, page + 1⟩
    | .ok p =>
      if p.data = [] then ⟨acc, acc.length, page + 1⟩
      else
        match sinceDt with
        | some t =>
          let fs := filterSince t p.data
          let acc1 := acc ++ fs.1
          if fs.2 then ⟨acc1, acc1.length, page + 1⟩
          else if !p.hasNext || p.totalPages - 1 ≤ page then
            ⟨acc1, acc1.length, page + 1⟩
          else
            extractLoop api sinceDt fuel (page + 1) acc1
        | none =>
          let acc1 := acc ++ p.data
          if !p.hasNext || p.totalPages - 1 ≤ page then
            ⟨acc1, acc1.length, page + 1⟩
          else
            extractLoop api sinceDt fuel (page + 1) acc1

/-- The `since` argument of src/device_extract.py `extract_devices`:
absent, a well-formed ISO instant, or a malformed string (which
`datetime.fromisoformat` rejects). -/
inductive SinceArg where
  | noSince
  | valid (t : Nat)
  | malformed
deriving Repr, DecidableEq

/-- src/device_extract.py `extract_devices(batch_size, since)`:
a malformed `since` raises `ValueError` before any request is issued
(modelled as `Except.error`, independent of `api`); otherwise the paging
loop runs and its accumulated result is returned. -/
def extract_devices (api : Nat → ApiResponse) (since : SinceArg)
    (fuel : Nat) : Except String ExtractResult :=
  match since with
  | .malformed => .error "Invalid since parameter"
  | .noSince => .ok (extractLoop api none fuel 0 [])
  | .valid t => .ok (extractLoop api (some t) fuel 0 [])

end DeviceExtract

namespace DagExtract

open Extract

/-- The `since` list comprehension of src/dags/device_extract.py:
`[d for d in devices if d.get('createdTime', '') > since]` — records with
a missing creation time compare as the empty string, never newer. -/
def newerFilter (since : Nat) (ds : List ApiRecord) : List ApiRecord :=
  ds.filter (isNewer since)

/-- The paging loop of src/dags/device_extract.py `extract_devices`.
Differences from src/device_extract.py: all failure responses are caught
by the same two handlers (same break behaviour); with `since` active the
whole page is filtered and, whenever any record was filtered out, the
filtered records are all accumulated and paging stops. -/
def extractLoop (api : Nat → ApiResponse) (since : Option Nat) :
    Nat → Nat → List ApiRecord → ExtractResult
  | 0, page, acc => ⟨acc, acc.length, page + 1⟩
  | fuel + 1, page, acc =>
    match api page with
    | .ok p =>
      if p.data = [] then ⟨acc, acc.length, page + 1⟩
      else
        match since with
        | some s =>
          let nd := newerFilter s p.data
          if nd.length < p.data.length then
            ⟨acc ++ nd, (acc ++ nd).length, page + 1⟩
          else if !p.hasNext || p.totalPages - 1 ≤ page then
            ⟨acc ++ nd, (acc ++ nd).length, page + 1⟩
          else
            extractLoop api since fuel (page + 1) (acc ++ nd)
        | none =>
          if !p.hasNext || p.totalPages - 1 ≤ page then
            ⟨acc ++ p.data, (acc ++ p.data).length, page + 1⟩
          else
            extractLoop api since fuel (page + 1) (acc ++ p.data)
    | _ => ⟨acc, acc.length, page + 1⟩

/-- src/dags/device_extract.py `extract_devices(batch_size, since)`:
no `since` validation; the paging loop result is returned directly. -/
def extract_devices (api : Nat → ApiResponse) (since : Option Nat)
    (fuel : Nat) : ExtractResult :=
  extractLoop api since fuel 0 []

end DagExtract

namespace Extract

/-- Concrete provider: one descending page holding one record newer and one
older than the instant 5, reporting further pages available. -/
def api0 : Nat → ApiResponse :=
  fun _ => .ok ⟨[⟨"newer", some 10⟩, ⟨"older", some 2⟩], 2, 5, true⟩

/-- Concrete provider that answers HTTP 500 to every request. -/
def api500 : Nat → ApiResponse := fun _ => .httpError 500

/-- Concrete provider: a successful first page announcing more pages, then a
timeout. -/
def apiOkThenTimeout : Nat → ApiResponse :=
  fun p => if p = 0 then .ok ⟨[⟨"a", some 7⟩], 1, 3, true⟩ else .timeout

end Extract

namespace DeviceExtract

/-- A row of the `devices` table as written by
`save_devices_to_database` (src/device_extract.py). -/
structure DeviceRow where
  device_id : String
  name : String
  device_type : String
  status : String
  install_date : Option Nat
deriving Repr, DecidableEq

/-- One element of the `data` list passed to `save_devices_to_database`.
`idId` models `device['id']['id']` (`none` = missing key, raising the
caught `KeyError`), likewise `name`.  `dtype` models
`device.get('type', '')`, `active` models `device.get('active', False)`,
and `createdTime` the parsed-and-reformatted `install_date` (`none` =
missing, non-string or unparseable, stored as NULL). -/
structure InputDevice where
  idId : Option String
  name : Option String
  dtype : Option String
  active : Bool
  createdTime : Option Nat
deriving Repr, DecidableEq

/-- The non-key column values one input device writes. -/
structure DevPayload where
  name : String
  device_type : String
  status : String
  install_date : Option Nat
deriving Repr, DecidableEq

/-- The column values derived from an input device in the loop body of
`save_devices_to_database`. -/
def payloadOf (d : InputDevice) (nm : String) : DevPayload :=
  ⟨nm, d.dtype.getD "", if d.active then "active" else "inactive",
   d.createdTime⟩

/-- A freshly inserted row:
`INSERT INTO devices (device_id, name, device_type, status, install_date)`. -/
def rowOf (k : String) (p : DevPayload) : DeviceRow :=
  ⟨k, p.name, p.device_type, p.status, p.install_date⟩

/-- `SELECT device_id FROM devices WHERE device_id = %s` — does a row with
this key exist? -/
def keyMem (k : String) (t : List DeviceRow) : Bool :=
  t.any fun r => r.device_id == k

/-- `UPDATE devices SET name=…, device_type=…, status=…, install_date=…
WHERE device_id = %s`: update every row matching the key. -/
def applyUpdate (k : String) (p : DevPayload) (t : List DeviceRow) :
    List DeviceRow :=
  t.map fun r =>
    if r.device_id = k then
      { r with name := p.name, device_type := p.device_type,
               status := p.status, install_date := p.install_date }
    else r

/-- One iteration of the device loop in `save_devices_to_database`:
a missing `id.id` or `name` is a `KeyError`, logged and skipped; otherwise
select-by-key decides between update (counted separately) and insert
(counted in the returned value). -/
def upsertOne (t : List DeviceRow) (d : InputDevice) : List DeviceRow × Nat :=
  match d.idId, d.name with
  | some device_id, some nm =>
    let p := payloadOf d nm
    if keyMem device_id t then
      (applyUpdate device_id p t, 0)
    else
      (t ++ [rowOf device_id p], 1)
  | _, _ => (t, 0)

/-- `save_devices_to_database(devices_data)` acting on the `devices` table:
fold the per-device upsert over the batch, returning the final table and
the number of newly inserted rows. -/
def save_devices_to_database :
    List InputDevice → List DeviceRow → List DeviceRow × Nat
  | [], t => (t, 0)
  | d :: ds, t =>
    let r := upsertOne t d
    let s := save_devices_to_database ds r.1
    (s.1, r.2 + s.2)

/-- Does some record of the batch perform a (non-skipped) write to key
`k`? -/
def writesKey (k : String) (ds : List InputDevice) : Prop :=
  ∃ d ∈ ds, d.idId = some k ∧ d.name.isSome

end DeviceExtract

namespace Kpis

open Collector (DeviceStatusHistory)

/-- The `DeviceStatusHistory` query shared verbatim by
`_calculate_uptime_percentage` and `_calculate_availability`:
rows of the device whose `started_at` falls inside the period. -/
def statusQuery (db : List DeviceStatusHistory)
    (device_id period_start period_end : Nat) : List DeviceStatusHistory :=
  db.filter fun r =>
    decide (r.device_id = device_id ∧ period_start ≤ r.started_at ∧
      r.started_at ≤ period_end)

/-- `_calculate_uptime_percentage(db, device_id, period_start, period_end)`
(src/src/api/routes/kpis.py).  Float arithmetic is modelled over ℚ. -/
def _calculate_uptime_percentage (db : List DeviceStatusHistory)
    (device_id period_start period_end : Nat) : ℚ :=
  let status_history := statusQuery db device_id period_start period_end
  if status_history = [] then 0
  else
    let total_time : ℚ := (period_end : ℚ) - (period_start : ℚ)
    let total_uptime : ℚ := status_history.foldl
      (fun acc status =>
        if status.status = "active" then
          acc +
            (match status.ended_at with
             | some e => (e : ℚ) - (status.started_at : ℚ)
             | none => (period_end : ℚ) - (status.started_at : ℚ))
        else acc) 0
    if 0 < total_time then total_uptime / total_time * 100 else 0

/-- `_calculate_availability(db, device_id, period_start, period_end)`
(src/src/api/routes/kpis.py) — the source defines it with the same query
and the same accumulation as `_calculate_uptime_percentage`. -/
def _calculate_availability (db : List DeviceStatusHistory)
    (device_id period_start period_end : Nat) : ℚ :=
  let status_history := statusQuery db device_id period_start period_end
  if status_history = [] then 0
  else
    let total_time : ℚ := (period_end : ℚ) - (period_start : ℚ)
    let total_active : ℚ := status_history.foldl
      (fun acc status =>
        if status.status = "active" then
          acc +
            (match status.ended_at with
             | some e => (e : ℚ) - (status.started_at : ℚ)
             | none => (period_end : ℚ) - (status.started_at : ℚ))
        else acc) 0
    if 0 < total_time then total_active / total_time * 100 else 0

/-- The end instant an interval contributes inside the period: its
`ended_at` when closed, `period_end` when still open. -/
def effEnd (period_end : Nat) (r : DeviceStatusHistory) : Nat :=
  r.ended_at.getD period_end

/-- The duration one row adds to `total_uptime` when its status is
active. -/
def activeDur (period_end : Nat) (r : DeviceStatusHistory) : ℚ :=
  match r.ended_at with
  | some e => (e : ℚ) - (r.started_at : ℚ)
  | none => (period_end : ℚ) - (r.started_at : ℚ)

/-- An active interval started inside the period [0, 10] but ended at 110,
long after the period's end. -/
def rowOverrun : DeviceStatusHistory := ⟨1, "active", 0, some 110, none⟩

/-- An active interval lying entirely inside the period [0, 10]. -/
def rowInside : DeviceStatusHistory := ⟨1, "active", 2, some 8, none⟩

end Kpis

namespace Dag

/-- A `telemetry_logs` row as read by the aggregation SQL. -/
structure TelemetryRow where
  device_id : Nat
  timestamp : Nat
  rss_value : ℚ
deriving Repr, DecidableEq

/-- A `device_status` row as produced by the aggregation SQL. -/
structure DeviceStatusRow where
  device_id : Nat
  window_start : Nat
  window_end : Nat
  uptime_percentage : ℚ
  avg_rss : ℚ
  active_minutes : Nat
  inactive_minutes : Nat
deriving Repr, DecidableEq

/-- `date_trunc('hour', timestamp)` on epoch seconds. -/
def truncHour (ts : Nat) : Nat := ts / 3600 * 3600

/-- `EXTRACT(EPOCH FROM (NOW() - timestamp)) / 60`. -/
def ageMinutes (now ts : Nat) : ℚ := ((now : ℚ) - (ts : ℚ)) / 60

/-- The inline aggregation SQL of `aggregate_status`
(src/dags/iot_kpi_dag.py): restrict `telemetry_logs` to the last hour,
group by `(device_id, hour window)` and emit one `device_status` row per
group with `uptime_percentage = fresh_count / total_count * 100`, where a
sample is fresh when its age is at most 5 minutes.  Groups are keyed in
first-appearance order; each group is nonempty by construction (the SQL's
`NULLIF(COUNT(*), 0)` guard never fires within a group). -/
def aggregate_status (now : Nat) (logs : List TelemetryRow) :
    List DeviceStatusRow :=
  let sub := logs.filter fun r =>
    decide ((now : Int) - 3600 ≤ (r.timestamp : Int) ∧ r.timestamp < now)
  let keys := (sub.map fun r => (r.device_id, truncHour r.timestamp)).dedup
  keys.map fun k =>
    let g := sub.filter fun r =>
      decide (r.device_id = k.1 ∧ truncHour r.timestamp = k.2)
    let fresh :=
      (g.filter fun r => decide (ageMinutes now r.timestamp ≤ 5)).length
    { device_id := k.1, window_start := k.2, window_end := k.2 + 3600,
      uptime_percentage := (fresh : ℚ) / (g.length : ℚ) * 100,
      avg_rss := (g.map TelemetryRow.rss_value).sum / (g.length : ℚ),
      active_minutes := fresh,
      inactive_minutes :=
        (g.filter fun r => decide (5 < ageMinutes now r.timestamp)).length }

end Dag

/-! Further component definitions are inserted here; all theorems follow
the definitions. -/

namespace Collector

theorem openCount_nil (did : Nat) : openCount did [] = 0 := rfl

theorem openCount_cons (did : Nat) (r : DeviceStatusHistory)
    (rs : List DeviceStatusHistory) :
    openCount did (r :: rs) =
      (if r.device_id = did ∧ r.ended_at = none then 1 else 0) + openCount did rs := by
  by_cases h : r.device_id = did ∧ r.ended_at = none
  · simp [openCount, List.filter_cons, h]; omega
  · simp [openCount, List.filter_cons, h]

theorem openCount_append (did : Nat) (l1 l2 : List DeviceStatusHistory) :
    openCount did (l1 ++ l2) = openCount did l1 + openCount did l2 := by
  simp [openCount, List.filter_append]

theorem openCount_closeFirstOpen (did ts : Nat) (hist : List DeviceStatusHistory) :
    openCount did (closeFirstOpen did ts hist) = openCount did hist - 1 := by
  induction hist with
  | nil => rfl
  | cons r rs ih =>
    by_cases h : r.device_id = did ∧ r.ended_at = none
    · rw [closeFirstOpen, if_pos h, openCount_cons, openCount_cons, if_pos h]
      simp [h.1]
    · rw [closeFirstOpen, if_neg h, openCount_cons, openCount_cons, if_neg h, ih]
      rcases Nat.eq_zero_or_pos (openCount did rs) with h0 | h0
      · simp [h0]
      · omega

theorem closeFirstOpen_of_none (did ts : Nat) (hist : List DeviceStatusHistory)
    (h : openCount did hist = 0) : closeFirstOpen did ts hist = hist := by
  induction hist with
  | nil => rfl
  | cons r rs ih =>
    rw [openCount_cons] at h
    by_cases hr : r.device_id = did ∧ r.ended_at = none
    · rw [if_pos hr] at h; omega
    · rw [if_neg hr] at h
      rw [closeFirstOpen, if_neg hr, ih (by omega)]

theorem map_closeIfOpen_of_none (did ts : Nat) (hist : List DeviceStatusHistory)
    (h : openCount did hist = 0) : hist.map (closeIfOpen did ts) = hist := by
  induction hist with
  | nil => rfl
  | cons r rs ih =>
    rw [openCount_cons] at h
    by_cases hr : r.device_id = did ∧ r.ended_at = none
    · rw [if_pos hr] at h; omega
    · rw [if_neg hr] at h
      rw [List.map_cons, closeIfOpen, if_neg hr, ih (by omega)]

theorem closeFirstOpen_eq_map (did ts : Nat) (hist : List DeviceStatusHistory)
    (h : openCount did hist ≤ 1) :
    closeFirstOpen did ts hist = hist.map (closeIfOpen did ts) := by
  induction hist with
  | nil => rfl
  | cons r rs ih =>
    rw [openCount_cons] at h
    by_cases hr : r.device_id = did ∧ r.ended_at = none
    · rw [if_pos hr] at h
      rw [closeFirstOpen, if_pos hr, List.map_cons, closeIfOpen, if_pos hr,
        map_closeIfOpen_of_none did ts rs (by omega)]
    · rw [if_neg hr] at h
      rw [closeFirstOpen, if_neg hr, List.map_cons, closeIfOpen, if_neg hr,
        ih (by omega)]

theorem update_device_status_id (dev : Device) (hist : List DeviceStatusHistory)
    (b : Bool) (t : Nat) : (update_device_status dev hist b t).1.id = dev.id := by
  unfold update_device_status
  by_cases h : dev.status = (if b then "active" else "inactive") <;> simp [h]

theorem update_device_status_last_seen (dev : Device)
    (hist : List DeviceStatusHistory) (b : Bool) (t : Nat) :
    (update_device_status dev hist b t).1.last_seen = dev.last_seen := by
  unfold update_device_status
  by_cases h : dev.status = (if b then "active" else "inactive") <;> simp [h]

theorem openCount_update_le (dev : Device) (hist : List DeviceStatusHistory)
    (b : Bool) (t : Nat) (h : openCount dev.id hist ≤ 1) :
    openCount dev.id (update_device_status dev hist b t).2 ≤ 1 := by
  unfold update_device_status
  by_cases hs : dev.status = (if b then "active" else "inactive")
  · simpa [hs] using h
  · simp only [hs, if_neg, if_false]
    rw [openCount_append, openCount_closeFirstOpen, openCount_cons,
      if_pos ⟨rfl, rfl⟩]
    simp only [openCount_nil]
    omega

theorem runSignals_openCount (sigs : List (Bool × Nat)) :
    ∀ (dev : Device) (hist : List DeviceStatusHistory),
      openCount dev.id hist ≤ 1 →
      openCount dev.id (runSignals dev hist sigs).2 ≤ 1 := by
  induction sigs with
  | nil => intro dev hist h; exact h
  | cons s rest ih =>
    intro dev hist h
    obtain ⟨b, t⟩ := s
    rw [runSignals]
    have hid := update_device_status_id dev hist b t
    have hstep := openCount_update_le dev hist b t h
    have := ih (update_device_status dev hist b t).1
      (update_device_status dev hist b t).2 (by rw [hid]; exact hstep)
    rwa [hid] at this

/-- Claim C3: for every device and every finite sequence of status signals
processed by `_update_device_status`, starting from a state with no open
interval for that device, at most one `DeviceStatusHistory` row for that
device has a null `ended_at`.  Quantifying over all finite signal
sequences covers the state after each processed signal, since every prefix
of a sequence is itself a sequence. -/
theorem single_open_interval_invariant (dev : Device)
    (hist : List DeviceStatusHistory) (sigs : List (Bool × Nat))
    (hstart : openCount dev.id hist = 0) :
    openCount dev.id (runSignals dev hist sigs).2 ≤ 1 :=
  runSignals_openCount sigs dev hist (by omega)

theorem single_open_interval_invariant_witness :
    openCount 1 ([] : List DeviceStatusHistory) = 0 ∧
    openCount 1
      (runSignals ⟨1, "active", none, none⟩ []
        [(false, 10), (true, 20), (false, 30)]).2 ≤ 1 :=
  ⟨rfl, single_open_interval_invariant ⟨1, "active", none, none⟩ []
    [(false, 10), (true, 20), (false, 30)] rfl⟩

/-- Claim C4: `_update_device_status(device, is_responding, now)` is a no-op
when the derived status equals the device's current status; otherwise it
closes the open interval for that device (setting `ended_at = now` and
`duration_seconds = now - started_at`), appends a fresh open interval with
the new status and `started_at = now`, and sets the device's status field.
(Stated in any state respecting the single-open-interval invariant.) -/
theorem update_device_status_spec (dev : Device)
    (hist : List DeviceStatusHistory) (b : Bool) (ts : Nat)
    (h : openCount dev.id hist ≤ 1) :
    ((if b then "active" else "inactive") = dev.status →
      update_device_status dev hist b ts = (dev, hist)) ∧
    ((if b then "active" else "inactive") ≠ dev.status →
      update_device_status dev hist b ts =
        ({ dev with status := if b then "active" else "inactive" },
         hist.map (closeIfOpen dev.id ts) ++
           [⟨dev.id, if b then "active" else "inactive", ts, none, none⟩])) := by
  constructor
  · intro heq
    simp only [update_device_status]
    rw [if_pos heq.symm]
  · intro hne
    simp only [update_device_status]
    rw [if_neg (fun hh => hne hh.symm), closeFirstOpen_eq_map dev.id ts hist h]

theorem update_device_status_spec_witness :
    openCount 1 [(⟨1, "active", 10, none, none⟩ : DeviceStatusHistory)] ≤ 1 ∧
    update_device_status ⟨1, "active", none, none⟩
      [⟨1, "active", 10, none, none⟩] false 50 =
      (⟨1, "inactive", none, none⟩,
       [⟨1, "active", 10, some 50, some 40⟩, ⟨1, "inactive", 50, none, none⟩]) := by
  have h := update_device_status_spec ⟨1, "active", none, none⟩
    [⟨1, "active", 10, none, none⟩] false 50 (by decide)
  exact ⟨by decide, (h.2 (by decide)).trans (by decide)⟩

/-- Claim C7: on a telemetry poll with no data, if the elapsed time since the
device's `last_seen` is within the 300-second threshold, the device record
and the status history are left unchanged — only the telemetry log row is
appended.  In particular a device seen 2 minutes ago is not transitioned to
inactive by a single missed poll. -/
theorem flap_suppression (dev : Device) (hist : List DeviceStatusHistory)
    (logs : List TelemetryLog) (l ts : Nat) (h1 : dev.last_seen = some l)
    (h2 : (ts : Int) - (l : Int) ≤ 300) :
    collect_device_metrics dev hist logs none ts =
      ⟨dev, hist,
       logs ++ [⟨dev.id, ts, dev.rss_meta.getD (-70), RawPayload.noResponse⟩]⟩ := by
  have hb : decide ((300 : Int) < (ts : Int) - (l : Int)) = false :=
    decide_eq_false (not_lt.mpr h2)
  simp only [collect_device_metrics, h1, hb, Bool.false_eq_true, if_false]

theorem flap_suppression_witness :
    (⟨1, "active", some 880, some (-60)⟩ : Device).last_seen = some 880 ∧
    ((1000 : Int) - (880 : Int) ≤ 300) ∧
    collect_device_metrics ⟨1, "active", some 880, some (-60)⟩ [] [] none 1000 =
      ⟨⟨1, "active", some 880, some (-60)⟩, [],
       [⟨1, 1000, -60, RawPayload.noResponse⟩]⟩ :=
  ⟨rfl, by decide,
   flap_suppression ⟨1, "active", some 880, some (-60)⟩ [] [] 880 1000 rfl
     (by decide)⟩

/-- Claim C9 (implicit): every per-device collection pass appends exactly one
telemetry log row — also on no data, where the row carries the no-response
payload and, additionally, the device's `last_seen` is not refreshed. -/
theorem telemetry_log_append (dev : Device) (hist : List DeviceStatusHistory)
    (logs : List TelemetryLog) (dd : Option Unit) (ts : Nat) :
    (collect_device_metrics dev hist logs dd ts).logs =
      logs ++ [⟨dev.id, ts, dev.rss_meta.getD (-70),
        match dd with
        | some _ => RawPayload.deviceData
        | none => RawPayload.noResponse⟩] ∧
    (collect_device_metrics dev hist logs none ts).device.last_seen =
      dev.last_seen := by
  constructor
  · cases dd with
    | some u => rfl
    | none =>
      simp only [collect_device_metrics]
      split
      · rfl
      · rfl
  · simp only [collect_device_metrics]
    split
    · exact update_device_status_last_seen dev hist false ts
    · rfl

/-- Claim C10 (implicit): a device with null `last_seen` that yields no data
is treated as infinitely stale, so the very first missed poll transitions
it to inactive. -/
theorem null_last_seen_inactive (dev : Device) (hist : List DeviceStatusHistory)
    (logs : List TelemetryLog) (ts : Nat) (h : dev.last_seen = none) :
    (collect_device_metrics dev hist logs none ts).device.status =
      "inactive" := by
  simp only [collect_device_metrics, h, if_true]
  simp only [update_device_status]
  by_cases hs : dev.status = "inactive"
  · simp [hs]
  · simp [hs]

theorem null_last_seen_inactive_witness :
    (⟨2, "active", none, none⟩ : Device).last_seen = none ∧
    (collect_device_metrics ⟨2, "active", none, none⟩ [] [] none 100).device.status =
      "inactive" :=
  ⟨rfl, null_last_seen_inactive ⟨2, "active", none, none⟩ [] [] 100 rfl⟩

end Collector

namespace Extract

theorem isNewer_false_of_le (t : Nat) (a b : ApiRecord)
    (hab : timeOf b ≤ timeOf a) (ha : isNewer t a = false) :
    isNewer t b = false := by
  simp only [isNewer, timeOf] at *
  cases hcb : b.createdTime with
  | none => rfl
  | some ctb =>
    simp only [hcb, Option.getD_some] at hab ⊢
    cases hca : a.createdTime with
    | none =>
      simp only [hca, Option.getD_none] at hab
      simp only [decide_eq_false_iff_not]
      omega
    | some cta =>
      simp only [hca, Option.getD_some] at hab ha
      simp only [decide_eq_false_iff_not] at ha ⊢
      omega

theorem filter_isNewer_eq_takeWhile (t : Nat) (ds : List ApiRecord)
    (hsort : ds.Pairwise (fun a b => timeOf b ≤ timeOf a)) :
    ds.filter (isNewer t) = ds.takeWhile (isNewer t) := by
  induction ds with
  | nil => rfl
  | cons a l ih =>
    rw [List.pairwise_cons] at hsort
    obtain ⟨ha, hl⟩ := hsort
    by_cases hn : isNewer t a = true
    · rw [List.filter_cons_of_pos hn, List.takeWhile_cons_of_pos hn, ih hl]
    · have hna : isNewer t a = false := Bool.eq_false_iff.mpr hn
      rw [List.filter_cons_of_neg hn, List.takeWhile_cons_of_neg hn]
      rw [List.filter_eq_nil_iff]
      intro b hb
      simp [isNewer_false_of_le t a b (ha b hb) hna]

theorem length_filter_lt (t : Nat) (ds : List ApiRecord)
    (h : ∃ r ∈ ds, isNewer t r = false) :
    (ds.filter (isNewer t)).length < ds.length := by
  induction ds with
  | nil =>
    obtain ⟨r, hr, _⟩ := h
    exact absurd hr (List.not_mem_nil r)
  | cons a l ih =>
    obtain ⟨r, hr, hrf⟩ := h
    rcases List.mem_cons.mp hr with rfl | hmem
    · rw [List.filter_cons_of_neg (by simp [hrf])]
      have := List.length_filter_le (isNewer t) l
      simp only [List.length_cons]
      omega
    · by_cases ha : isNewer t a = true
      · rw [List.filter_cons_of_pos ha]
        simpa using ih ⟨r, hmem, hrf⟩
      · rw [List.filter_cons_of_neg ha]
        have := List.length_filter_le (isNewer t) l
        simp only [List.length_cons]
        omega

end Extract

namespace DeviceExtract

open Extract

theorem filterSince_eq (t : Nat) (ds : List ApiRecord)
    (hvalid : ∀ r ∈ ds, r.createdTime.isSome) :
    filterSince t ds = (ds.takeWhile (isNewer t), !ds.all (isNewer t)) := by
  induction ds with
  | nil => rfl
  | cons r rs ih =>
    have hr : r.createdTime.isSome := hvalid r (List.mem_cons_self r rs)
    obtain ⟨ct, hct⟩ := Option.isSome_iff_exists.mp hr
    have ihv : ∀ x ∈ rs, x.createdTime.isSome := fun x hx =>
      hvalid x (List.mem_cons_of_mem r hx)
    by_cases hlt : t < ct
    · have hnew : isNewer t r = true := by simp [isNewer, hct, hlt]
      simp [filterSince, hct, hlt, ih ihv, List.takeWhile_cons_of_pos hnew,
        List.all_cons, hnew]
    · have hnew : isNewer t r = false := by simp [isNewer, hct]; omega
      simp [filterSince, hct, hlt,
        List.takeWhile_cons_of_neg (by simp [hnew] : ¬isNewer t r = true),
        List.all_cons, hnew]

end DeviceExtract

namespace Extract

/-- Claim C1: with a valid `since` instant T and a first page whose records
all carry valid creation times and contain a record not strictly newer
than T, `extract_devices` accumulates exactly the records strictly newer
than T preceding the first non-newer record (the `takeWhile` prefix) and
halts: the result reports one processed page, and holds for an arbitrary
provider behaviour on later pages and arbitrary remaining fuel — no
subsequent page is fetched.  The DAG variant agrees under the
descending-creation-time ordering the pipeline assumes. -/
theorem early_stop_exact (api : Nat → ApiResponse) (T : Nat)
    (ds : List ApiRecord) (te tp : Nat) (hnx : Bool) (fuel : Nat)
    (hapi : api 0 = .ok ⟨ds, te, tp, hnx⟩)
    (hvalid : ∀ r ∈ ds, r.createdTime.isSome)
    (hstop : ∃ r ∈ ds, isNewer T r = false) :
    DeviceExtract.extract_devices api (.valid T) (fuel + 1) =
      .ok ⟨ds.takeWhile (isNewer T), (ds.takeWhile (isNewer T)).length, 1⟩ ∧
    (ds.Pairwise (fun a b => timeOf b ≤ timeOf a) →
      DagExtract.extract_devices api (some T) (fuel + 1) =
        ⟨ds.takeWhile (isNewer T), (ds.takeWhile (isNewer T)).length, 1⟩) := by
  have hne : ds ≠ [] := by
    rintro rfl
    obtain ⟨r, hr, _⟩ := hstop
    exact (List.not_mem_nil r) hr
  have hall : ds.all (isNewer T) = false := by
    rw [Bool.eq_false_iff]
    intro htrue
    rcases hstop with ⟨r, hr, hf⟩
    rw [List.all_eq_true] at htrue
    exact absurd (htrue r hr) (by simp [hf])
  constructor
  · simp only [DeviceExtract.extract_devices, DeviceExtract.extractLoop, hapi,
      if_neg hne, DeviceExtract.filterSince_eq T ds hvalid, hall,
      Bool.not_false, if_true, List.nil_append]
  · intro hsort
    have hflt : DagExtract.newerFilter T ds = ds.takeWhile (isNewer T) :=
      filter_isNewer_eq_takeWhile T ds hsort
    have hlen : (DagExtract.newerFilter T ds).length < ds.length :=
      length_filter_lt T ds hstop
    have hlen2 : (ds.takeWhile (isNewer T)).length < ds.length := by
      rw [← hflt]; exact hlen
    simp only [DagExtract.extract_devices, DagExtract.extractLoop, hapi,
      if_neg hne, hflt, if_pos hlen2, List.nil_append]

theorem early_stop_exact_witness :
    api0 0 = .ok ⟨[⟨"newer", some 10⟩, ⟨"older", some 2⟩], 2, 5, true⟩ ∧
    (∃ r ∈ [(⟨"newer", some 10⟩ : ApiRecord), ⟨"older", some 2⟩],
      isNewer 5 r = false) ∧
    DeviceExtract.extract_devices api0 (.valid 5) 2 =
      .ok ⟨[⟨"newer", some 10⟩], 1, 1⟩ ∧
    DagExtract.extract_devices api0 (some 5) 2 =
      ⟨[⟨"newer", some 10⟩], 1, 1⟩ := by
  have h := early_stop_exact api0 5 [⟨"newer", some 10⟩, ⟨"older", some 2⟩]
    2 5 true 1 rfl (by decide) ⟨⟨"older", some 2⟩, by decide, by decide⟩
  refine ⟨rfl, ⟨⟨"older", some 2⟩, by decide, by decide⟩, h.1.trans (by rfl),
    (h.2 ?_).trans (by rfl)⟩
  decide

end Extract

namespace DeviceExtract

open Extract

/-- Claim C6: `extract_devices` raises only on a malformed caller-supplied
`since`, and does so independently of the provider (no request is made);
with any other `since` it always returns a result; a non-200 status on the
first page yields an empty result with `totalElements = 0`; a timeout
after a successful page returns the records accumulated so far. -/
theorem failure_boundary :
    (∀ (api : Nat → ApiResponse) (fuel : Nat),
      extract_devices api .malformed fuel = .error "Invalid since parameter") ∧
    (∀ (api : Nat → ApiResponse) (since : SinceArg) (fuel : Nat),
      since ≠ .malformed → ∃ r, extract_devices api since fuel = .ok r) ∧
    (∀ (api : Nat → ApiResponse) (fuel s : Nat) (since : SinceArg),
      since ≠ .malformed → api 0 = .httpError s →
      extract_devices api since fuel = .ok ⟨[], 0, 1⟩) ∧
    (∀ (api : Nat → ApiResponse) (fuel : Nat) (p : ApiPage),
      api 0 = .ok p → p.data ≠ [] → p.hasNext = true → 2 ≤ p.totalPages →
      api 1 = .timeout →
      extract_devices api .noSince (fuel + 2) =
        .ok ⟨p.data, p.data.length, 2⟩) := by
  refine ⟨fun api fuel => rfl, ?_, ?_, ?_⟩
  · intro api since fuel hm
    cases since with
    | noSince => exact ⟨_, rfl⟩
    | valid t => exact ⟨_, rfl⟩
    | malformed => exact absurd rfl hm
  · intro api fuel s since hm hapi
    cases since with
    | malformed => exact absurd rfl hm
    | noSince =>
      cases fuel with
      | zero => rfl
      | succ n =>
        simp only [extract_devices, extractLoop, hapi]
        rfl
    | valid t =>
      cases fuel with
      | zero => rfl
      | succ n =>
        simp only [extract_devices, extractLoop, hapi]
        rfl
  · intro api fuel p hapi0 hne hnx htp hapi1
    have hcond : (!p.hasNext || decide (p.totalPages - 1 ≤ 0)) = false := by
      rw [hnx]
      simp only [Bool.not_true, Bool.false_or, decide_eq_false_iff_not]
      omega
    simp only [extract_devices, extractLoop, hapi0, if_neg hne, hcond,
      Bool.false_eq_true, if_false, hapi1, List.nil_append]

theorem failure_boundary_witness :
    extract_devices api500 .malformed 3 = .error "Invalid since parameter" ∧
    (SinceArg.noSince ≠ SinceArg.malformed) ∧
    extract_devices api500 .noSince 3 = .ok ⟨[], 0, 1⟩ ∧
    extract_devices apiOkThenTimeout .noSince 3 =
      .ok ⟨[⟨"a", some 7⟩], 1, 2⟩ := by
  obtain ⟨h1, h2, h3, h4⟩ := failure_boundary
  refine ⟨h1 api500 3, by decide, h3 api500 3 500 .noSince (by decide) rfl, ?_⟩
  exact (h4 apiOkThenTimeout 1 ⟨[⟨"a", some 7⟩], 1, 3, true⟩ rfl (by decide)
    rfl (by decide) rfl).trans (by rfl)

end DeviceExtract

namespace DeviceExtract

theorem keyMem_applyUpdate (a k : String) (p : DevPayload)
    (t : List DeviceRow) : keyMem a (applyUpdate k p t) = keyMem a t := by
  induction t with
  | nil => rfl
  | cons r rs ih =>
    simp only [applyUpdate, List.map_cons, keyMem, List.any_cons] at ih ⊢
    by_cases h : r.device_id = k
    · rw [if_pos h]
      simp only [ih]
    · rw [if_neg h]
      simp only [ih]

theorem applyUpdate_same (k : String) (p q : DevPayload) (t : List DeviceRow) :
    applyUpdate k q (applyUpdate k p t) = applyUpdate k q t := by
  induction t with
  | nil => rfl
  | cons r rs ih =>
    simp only [applyUpdate, List.map_cons] at ih ⊢
    by_cases h : r.device_id = k
    · rw [if_pos h]
      simp only [if_pos h, ih]
    · rw [if_neg h]
      simp only [if_neg h, ih]

theorem applyUpdate_comm (k k' : String) (p q : DevPayload)
    (t : List DeviceRow) (hne : k ≠ k') :
    applyUpdate k p (applyUpdate k' q t) = applyUpdate k' q (applyUpdate k p t) := by
  induction t with
  | nil => rfl
  | cons r rs ih =>
    simp only [applyUpdate, List.map_cons] at ih ⊢
    by_cases h : r.device_id = k'
    · have h2 : ¬ r.device_id = k := by rw [h]; exact fun hh => hne hh.symm
      rw [if_pos h, if_neg h2]
      simp only [if_pos h, if_neg h2, ih]
    · rw [if_neg h]
      by_cases h3 : r.device_id = k
      · rw [if_pos h3]
        simp only [if_pos h3, if_neg h, ih]
      · rw [if_neg h3]
        simp only [if_neg h3, if_neg h, ih]

theorem applyUpdate_append_row (k k' : String) (p q : DevPayload)
    (t : List DeviceRow) (hne : k ≠ k') :
    applyUpdate k p (t ++ [rowOf k' q]) = applyUpdate k p t ++ [rowOf k' q] := by
  simp only [applyUpdate, List.map_append, List.map_cons, List.map_nil]
  rw [if_neg (fun hh : (rowOf k' q).device_id = k => hne (hh.symm))]

theorem applyUpdate_absent (k : String) (p : DevPayload) (t : List DeviceRow)
    (h : keyMem k t = false) : applyUpdate k p t = t := by
  induction t with
  | nil => rfl
  | cons r rs ih =>
    simp only [keyMem, List.any_cons, Bool.or_eq_false_iff, beq_eq_false_iff_ne,
      ne_eq] at h
    simp only [applyUpdate, List.map_cons, if_neg h.1]
    have := ih (by simpa [keyMem] using h.2)
    simp only [applyUpdate] at this
    rw [this]

theorem keyMem_append_rowOf (k : String) (p : DevPayload) (t : List DeviceRow) :
    keyMem k (t ++ [rowOf k p]) = true := by
  simp [keyMem, List.any_append, rowOf]

theorem keyMem_upsertOne_mono (a : String) (t : List DeviceRow)
    (d : InputDevice) (h : keyMem a t = true) :
    keyMem a (upsertOne t d).1 = true := by
  cases hid : d.idId with
  | none => simpa [upsertOne, hid] using h
  | some k =>
    cases hnm : d.name with
    | none => simpa [upsertOne, hid, hnm] using h
    | some nm =>
      simp only [upsertOne, hid, hnm]
      by_cases hk : keyMem k t
      · rw [if_pos hk]
        simpa [keyMem_applyUpdate] using h
      · rw [if_neg hk]
        simp only [keyMem, List.any_append] at h ⊢
        rw [h]
        rfl

theorem keyMem_save_mono (a : String) (ds : List InputDevice) :
    ∀ t : List DeviceRow, keyMem a t = true →
      keyMem a (save_devices_to_database ds t).1 = true := by
  induction ds with
  | nil => intro t h; exact h
  | cons d rest ih =>
    intro t h
    simp only [save_devices_to_database]
    exact ih (upsertOne t d).1 (keyMem_upsertOne_mono a t d h)

theorem writesKey_cons (k : String) (d : InputDevice) (ds : List InputDevice) :
    writesKey k (d :: ds) ↔
      (d.idId = some k ∧ d.name.isSome) ∨ writesKey k ds := by
  constructor
  · rintro ⟨x, hx, hxk⟩
    rcases List.mem_cons.mp hx with rfl | hmem
    · exact Or.inl hxk
    · exact Or.inr ⟨x, hmem, hxk⟩
  · rintro (h | ⟨x, hmem, hxk⟩)
    · exact ⟨d, List.mem_cons_self d ds, h⟩
    · exact ⟨x, List.mem_cons_of_mem d hmem, hxk⟩

theorem save_no_write (k : String) (p : DevPayload) (ds : List InputDevice) :
    ∀ u : List DeviceRow, ¬ writesKey k ds →
      save_devices_to_database ds (applyUpdate k p u) =
        (applyUpdate k p (save_devices_to_database ds u).1,
         (save_devices_to_database ds u).2) := by
  induction ds with
  | nil => intro u _; rfl
  | cons d rest ih =>
    intro u hw
    rw [writesKey_cons] at hw
    push_neg at hw
    obtain ⟨hd, hrest⟩ := hw
    cases hid : d.idId with
    | none =>
      simp only [save_devices_to_database, upsertOne, hid]
      simp [ih u hrest]
    | some k' =>
      cases hnm : d.name with
      | none =>
        simp only [save_devices_to_database, upsertOne, hid, hnm]
        simp [ih u hrest]
      | some nm =>
        have hkk : k' ≠ k := by
          intro h
          subst h
          exact absurd (by simp [hnm]) (hd (by rw [hid]))
        simp only [save_devices_to_database, upsertOne, hid, hnm,
          keyMem_applyUpdate]
        by_cases hkm : keyMem k' u
        · rw [if_pos hkm, if_pos hkm]
          rw [applyUpdate_comm k' k (payloadOf d nm) p u fun h => hkk h]
          simp [ih (applyUpdate k' (payloadOf d nm) u) hrest]
        · rw [if_neg hkm, if_neg hkm]
          rw [show applyUpdate k p u ++ [rowOf k' (payloadOf d nm)] =
            applyUpdate k p (u ++ [rowOf k' (payloadOf d nm)]) from
            (applyUpdate_append_row k k' p (payloadOf d nm) u
              fun h => hkk h.symm).symm]
          simp [ih (u ++ [rowOf k' (payloadOf d nm)]) hrest]

theorem save_with_write (k : String) (ds : List InputDevice) :
    ∀ (u : List DeviceRow) (p : DevPayload), writesKey k ds →
      save_devices_to_database ds (applyUpdate k p u) =
        save_devices_to_database ds u := by
  induction ds with
  | nil =>
    intro u p hw
    obtain ⟨x, hx, _⟩ := hw
    exact absurd hx (List.not_mem_nil x)
  | cons d rest ih =>
    intro u p hw
    by_cases hdw : d.idId = some k ∧ d.name.isSome
    · obtain ⟨hid, hnm0⟩ := hdw
      obtain ⟨nm, hnm⟩ := Option.isSome_iff_exists.mp hnm0
      simp only [save_devices_to_database, upsertOne, hid, hnm,
        keyMem_applyUpdate]
      by_cases hkm : keyMem k u
      · rw [if_pos hkm, if_pos hkm, applyUpdate_same]
      · rw [if_neg hkm, if_neg hkm, applyUpdate_absent k p u
          (Bool.eq_false_iff.mpr hkm)]
    · have hrest : writesKey k rest := by
        rcases (writesKey_cons k d rest).mp hw with h | h
        · exact absurd h hdw
        · exact h
      cases hid : d.idId with
      | none =>
        simp only [save_devices_to_database, upsertOne, hid]
        simp [ih u p hrest]
      | some k' =>
        cases hnm : d.name with
        | none =>
          simp only [save_devices_to_database, upsertOne, hid, hnm]
          simp [ih u p hrest]
        | some nm =>
          have hkk : k' ≠ k := by
            intro h
            subst h
            exact hdw ⟨hid, by simp [hnm]⟩
          simp only [save_devices_to_database, upsertOne, hid, hnm,
            keyMem_applyUpdate]
          by_cases hkm : keyMem k' u
          · rw [if_pos hkm, if_pos hkm,
              applyUpdate_comm k' k (payloadOf d nm) p u fun h => hkk h]
            simp [ih (applyUpdate k' (payloadOf d nm) u) p hrest]
          · rw [if_neg hkm, if_neg hkm,
              show applyUpdate k p u ++ [rowOf k' (payloadOf d nm)] =
                applyUpdate k p (u ++ [rowOf k' (payloadOf d nm)]) from
                (applyUpdate_append_row k k' p (payloadOf d nm) u
                  fun h => hkk h.symm).symm]
            simp [ih (u ++ [rowOf k' (payloadOf d nm)]) p hrest]

theorem fixed_save (k : String) (p : DevPayload) (ds : List InputDevice)
    (u : List DeviceRow) (hw : ¬ writesKey k ds)
    (hfix : applyUpdate k p u = u) :
    applyUpdate k p (save_devices_to_database ds u).1 =
      (save_devices_to_database ds u).1 := by
  have h := save_no_write k p ds u hw
  rw [hfix] at h
  exact congrArg Prod.fst h.symm

/-- Claim C2: `save_devices_to_database` is idempotent — replaying the same
batch on the table produced by a first run reproduces exactly that table
and inserts zero new rows. -/
theorem save_devices_idempotent (ds : List InputDevice) :
    ∀ t : List DeviceRow,
      save_devices_to_database ds (save_devices_to_database ds t).1 =
        ((save_devices_to_database ds t).1, 0) := by
  induction ds with
  | nil => intro t; rfl
  | cons d rest ih =>
    intro t
    cases hid : d.idId with
    | none =>
      simp only [save_devices_to_database, upsertOne, hid]
      simp [ih t]
    | some k =>
      cases hnm : d.name with
      | none =>
        simp only [save_devices_to_database, upsertOne, hid, hnm]
        simp [ih t]
      | some nm =>
        set p := payloadOf d nm with hp
        have hu1 : keyMem k (upsertOne t d).1 = true := by
          simp only [upsertOne, hid, hnm, ← hp]
          by_cases hkm : keyMem k t
          · rw [if_pos hkm]
            simpa [keyMem_applyUpdate] using hkm
          · rw [if_neg hkm]
            exact keyMem_append_rowOf k p t
        have hT1 : keyMem k (save_devices_to_database rest (upsertOne t d).1).1
            = true := keyMem_save_mono k rest (upsertOne t d).1 hu1
        have hfix1 : applyUpdate k p (upsertOne t d).1 = (upsertOne t d).1 := by
          simp only [upsertOne, hid, hnm, ← hp]
          by_cases hkm : keyMem k t
          · rw [if_pos hkm, applyUpdate_same]
          · rw [if_neg hkm]
            rw [show applyUpdate k p (t ++ [rowOf k p]) =
              applyUpdate k p t ++ applyUpdate k p [rowOf k p] from by
              simp [applyUpdate]]
            rw [applyUpdate_absent k p t (Bool.eq_false_iff.mpr hkm)]
            simp [applyUpdate, rowOf]
        have hstep1 : save_devices_to_database (d :: rest) t =
            ((save_devices_to_database rest (upsertOne t d).1).1,
             (upsertOne t d).2 +
               (save_devices_to_database rest (upsertOne t d).1).2) := by
          simp only [save_devices_to_database]
        have hstep2 : ∀ v : List DeviceRow,
            save_devices_to_database (d :: rest) v =
              ((save_devices_to_database rest (upsertOne v d).1).1,
               (upsertOne v d).2 +
                 (save_devices_to_database rest (upsertOne v d).1).2) := by
          intro v
          simp only [save_devices_to_database]
        have hupd0 : ∀ v : List DeviceRow, keyMem k v = true →
            upsertOne v d = (applyUpdate k p v, 0) := by
          intro v hv
          simp only [upsertOne, hid, hnm, ← hp]
          rw [if_pos hv]
        have hupd := hupd0 (save_devices_to_database rest (upsertOne t d).1).1
          hT1
        have hihu : save_devices_to_database rest
            (save_devices_to_database rest (upsertOne t d).1).1 =
            ((save_devices_to_database rest (upsertOne t d).1).1, 0) :=
          ih (upsertOne t d).1
        rw [hstep1,
          hstep2 (save_devices_to_database rest (upsertOne t d).1).1, hupd]
        by_cases hw : writesKey k rest
        · rw [show ((applyUpdate k p
              (save_devices_to_database rest (upsertOne t d).1).1, 0) :
                List DeviceRow × Nat).1 =
              applyUpdate k p
                (save_devices_to_database rest (upsertOne t d).1).1 from rfl,
            save_with_write k rest
              (save_devices_to_database rest (upsertOne t d).1).1 p hw, hihu]
          rfl
        · rw [show ((applyUpdate k p
              (save_devices_to_database rest (upsertOne t d).1).1, 0) :
                List DeviceRow × Nat).1 =
              applyUpdate k p
                (save_devices_to_database rest (upsertOne t d).1).1 from rfl,
            save_no_write k p rest
              (save_devices_to_database rest (upsertOne t d).1).1 hw, hihu]
          rw [fixed_save k p rest (upsertOne t d).1 hw hfix1]
          rfl

end DeviceExtract

/-- Claim C8: `_calculate_availability` and `_calculate_uptime_percentage`
are extensionally equal — for every status-history table, device and
period they return the same value. -/
theorem availability_eq_uptime :
    ∀ (db : List Collector.DeviceStatusHistory) (device_id ps pe : Nat),
      Kpis._calculate_availability db device_id ps pe =
        Kpis._calculate_uptime_percentage db device_id ps pe :=
  fun _ _ _ _ => rfl

namespace Kpis

open Collector (DeviceStatusHistory)

theorem activeDur_eq (pe : Nat) (r : DeviceStatusHistory) :
    activeDur pe r = ((effEnd pe r : Nat) : ℚ) - (r.started_at : ℚ) := by
  cases h : r.ended_at <;> simp [activeDur, effEnd, h]

theorem foldl_uptime (pe : Nat) (l : List DeviceStatusHistory) :
    ∀ a : ℚ,
      l.foldl (fun acc status =>
        if status.status = "active" then
          acc +
            (match status.ended_at with
             | some e => (e : ℚ) - (status.started_at : ℚ)
             | none => (pe : ℚ) - (status.started_at : ℚ))
        else acc) a =
      a + ((l.filter fun r => decide (r.status = "active")).map
        (activeDur pe)).sum := by
  induction l with
  | nil => intro a; simp
  | cons r rs ih =>
    intro a
    rw [List.foldl_cons]
    by_cases h : r.status = "active"
    · rw [if_pos h, ih, List.filter_cons_of_pos (by simp [h]), List.map_cons,
        List.sum_cons]
      have hm : (match r.ended_at with
          | some e => (e : ℚ) - (r.started_at : ℚ)
          | none => (pe : ℚ) - (r.started_at : ℚ)) = activeDur pe r := by
        cases hh : r.ended_at <;> simp [activeDur, hh]
      rw [hm]
      ring
    · rw [if_neg h, ih, List.filter_cons_of_neg (by simp [h])]

theorem sum_chained_le (pe : Nat) :
    ∀ (l : List DeviceStatusHistory) (lo : Nat), lo ≤ pe →
      (∀ r ∈ l, r.started_at ≤ effEnd pe r ∧ effEnd pe r ≤ pe) →
      List.Chain' (fun a b => effEnd pe a ≤ b.started_at) l →
      (∀ b ∈ l.head?, lo ≤ b.started_at) →
      (l.map (activeDur pe)).sum ≤ (pe : ℚ) - (lo : ℚ) := by
  intro l
  induction l with
  | nil =>
    intro lo hlo _ _ _
    have : (lo : ℚ) ≤ (pe : ℚ) := by exact_mod_cast hlo
    simp
    linarith
  | cons r rs ih =>
    intro lo hlo hb hch hhd
    obtain ⟨hr1, hr2⟩ := hb r (List.mem_cons_self r rs)
    have hbs : ∀ x ∈ rs, x.started_at ≤ effEnd pe x ∧ effEnd pe x ≤ pe :=
      fun x hx => hb x (List.mem_cons_of_mem r hx)
    have hch2 : List.Chain' (fun a b => effEnd pe a ≤ b.started_at) rs :=
      (List.chain'_cons'.mp hch).2
    have hhd2 : ∀ b ∈ rs.head?, effEnd pe r ≤ b.started_at :=
      (List.chain'_cons'.mp hch).1
    have hsum := ih (effEnd pe r) hr2 hbs hch2 hhd2
    rw [List.map_cons, List.sum_cons, activeDur_eq]
    have hlor : lo ≤ r.started_at := hhd r rfl
    have c1 : (r.started_at : ℚ) ≤ ((effEnd pe r : Nat) : ℚ) := by
      exact_mod_cast hr1
    have c3 : (lo : ℚ) ≤ (r.started_at : ℚ) := by exact_mod_cast hlor
    linarith

/-- Claim C5 (amended): the hourly aggregator's `uptime_percentage` is
always within [0, 100], and `_calculate_uptime_percentage` returns 0.0
(not an error) when no status row matches; its value lies within [0, 100]
provided the matching active intervals have nonnegative durations, end by
`period_end` (open intervals being cut at `period_end`), and are pairwise
non-overlapping in list order.  Without those provisos the percentage can
leave [0, 100] — see the counterexample, where a matching interval ends
after `period_end`. -/
theorem uptime_percentage_bounds :
    (∀ (now : Nat) (logs : List Dag.TelemetryRow) (w : Dag.DeviceStatusRow),
      w ∈ Dag.aggregate_status now logs →
      0 ≤ w.uptime_percentage ∧ w.uptime_percentage ≤ 100) ∧
    (∀ (db : List DeviceStatusHistory) (did ps pe : Nat),
      statusQuery db did ps pe = [] →
      _calculate_uptime_percentage db did ps pe = 0) ∧
    (∀ (db : List DeviceStatusHistory) (did ps pe : Nat),
      ps < pe →
      (∀ r ∈ (statusQuery db did ps pe).filter
          (fun r => decide (r.status = "active")),
        r.started_at ≤ effEnd pe r ∧ effEnd pe r ≤ pe) →
      List.Chain' (fun a b => effEnd pe a ≤ b.started_at)
        ((statusQuery db did ps pe).filter
          (fun r => decide (r.status = "active"))) →
      0 ≤ _calculate_uptime_percentage db did ps pe ∧
        _calculate_uptime_percentage db did ps pe ≤ 100) := by
  refine ⟨?_, ?_, ?_⟩
  · intro now logs w hw
    unfold Dag.aggregate_status at hw
    obtain ⟨k, hk, rfl⟩ := List.mem_map.mp hw
    obtain ⟨r, hr, hkr⟩ := List.mem_map.mp (List.mem_dedup.mp hk)
    have hrg : r ∈ (logs.filter fun x =>
        decide ((now : Int) - 3600 ≤ (x.timestamp : Int) ∧
          x.timestamp < now)).filter
        (fun x => decide (x.device_id = k.1 ∧
          Dag.truncHour x.timestamp = k.2)) := by
      refine List.mem_filter.mpr ⟨hr, ?_⟩
      rw [← hkr]
      simp
    have hlen : 0 < ((logs.filter fun x =>
        decide ((now : Int) - 3600 ≤ (x.timestamp : Int) ∧
          x.timestamp < now)).filter
        (fun x => decide (x.device_id = k.1 ∧
          Dag.truncHour x.timestamp = k.2))).length :=
      List.length_pos.mpr (List.ne_nil_of_mem hrg)
    have hfle := List.length_filter_le
      (fun x => decide (Dag.ageMinutes now x.timestamp ≤ 5))
      ((logs.filter fun x =>
        decide ((now : Int) - 3600 ≤ (x.timestamp : Int) ∧
          x.timestamp < now)).filter
        (fun x => decide (x.device_id = k.1 ∧
          Dag.truncHour x.timestamp = k.2)))
    have hlenq : (0 : ℚ) < (((logs.filter fun x =>
        decide ((now : Int) - 3600 ≤ (x.timestamp : Int) ∧
          x.timestamp < now)).filter
        (fun x => decide (x.device_id = k.1 ∧
          Dag.truncHour x.timestamp = k.2))).length : ℚ) := by
      exact_mod_cast hlen
    have hratio0 : (0 : ℚ) ≤ ((((logs.filter fun x =>
        decide ((now : Int) - 3600 ≤ (x.timestamp : Int) ∧
          x.timestamp < now)).filter
        (fun x => decide (x.device_id = k.1 ∧
          Dag.truncHour x.timestamp = k.2))).filter
        (fun x => decide (Dag.ageMinutes now x.timestamp ≤ 5))).length : ℚ) /
        (((logs.filter fun x =>
        decide ((now : Int) - 3600 ≤ (x.timestamp : Int) ∧
          x.timestamp < now)).filter
        (fun x => decide (x.device_id = k.1 ∧
          Dag.truncHour x.timestamp = k.2))).length : ℚ) :=
      div_nonneg (by positivity) (le_of_lt hlenq)
    have hratio1 : ((((logs.filter fun x =>
        decide ((now : Int) - 3600 ≤ (x.timestamp : Int) ∧
          x.timestamp < now)).filter
        (fun x => decide (x.device_id = k.1 ∧
          Dag.truncHour x.timestamp = k.2))).filter
        (fun x => decide (Dag.ageMinutes now x.timestamp ≤ 5))).length : ℚ) /
        (((logs.filter fun x =>
        decide ((now : Int) - 3600 ≤ (x.timestamp : Int) ∧
          x.timestamp < now)).filter
        (fun x => decide (x.device_id = k.1 ∧
          Dag.truncHour x.timestamp = k.2))).length : ℚ) ≤ 1 := by
      rw [div_le_one hlenq]
      exact_mod_cast hfle
    constructor
    · nlinarith
    · nlinarith
  · intro db did ps pe h
    unfold _calculate_uptime_percentage
    rw [h]
    simp
  · intro db did ps pe hps hb hch
    unfold _calculate_uptime_percentage
    by_cases hempty : statusQuery db did ps pe = []
    · rw [if_pos hempty]
      norm_num
    · rw [if_neg hempty]
      have htt : (0 : ℚ) < (pe : ℚ) - (ps : ℚ) := by
        have : (ps : ℚ) < (pe : ℚ) := by exact_mod_cast hps
        linarith
      rw [if_pos htt, foldl_uptime pe (statusQuery db did ps pe) 0]
      have hhd : ∀ b ∈ ((statusQuery db did ps pe).filter
          (fun r => decide (r.status = "active"))).head?,
          ps ≤ b.started_at := by
        intro b hbm
        have hrm : b ∈ (statusQuery db did ps pe).filter
            (fun r => decide (r.status = "active")) :=
          List.mem_of_mem_head? hbm
        have hr2 : b ∈ statusQuery db did ps pe :=
          (List.mem_filter.mp hrm).1
        have hr3 := (List.mem_filter.mp hr2).2
        simp only [decide_eq_true_eq] at hr3
        exact hr3.2.1
      have hsum_le := sum_chained_le pe
        ((statusQuery db did ps pe).filter
          (fun r => decide (r.status = "active"))) ps (le_of_lt hps) hb hch
        hhd
      have hsum_ge : 0 ≤ (((statusQuery db did ps pe).filter
          (fun r => decide (r.status = "active"))).map (activeDur pe)).sum := by
        apply List.sum_nonneg
        intro x hx
        obtain ⟨y, hy, rfl⟩ := List.mem_map.mp hx
        obtain ⟨h1, h2⟩ := hb y hy
        rw [activeDur_eq]
        have : (y.started_at : ℚ) ≤ ((effEnd pe y : Nat) : ℚ) := by
          exact_mod_cast h1
        linarith
      rw [zero_add]
      constructor
      · positivity
      · have hdiv : (((statusQuery db did ps pe).filter
            (fun r => decide (r.status = "active"))).map
              (activeDur pe)).sum / ((pe : ℚ) - (ps : ℚ)) ≤ 1 := by
          rw [div_le_one htt]
          linarith
        nlinarith

/-- The claim as frozen is false for `_calculate_uptime_percentage`: with
`period_start = 0 < 10 = period_end` and a single matching active
interval started at 0 but ended at 110 (after the period), the computed
percentage is 1100, outside [0, 100]. -/
theorem uptime_percentage_counterexample :
    (0 : Nat) < 10 ∧
    _calculate_uptime_percentage [rowOverrun] 1 0 10 = 1100 ∧
    ¬ (_calculate_uptime_percentage [rowOverrun] 1 0 10 ≤ 100) := by
  have hq : statusQuery [rowOverrun] 1 0 10 = [rowOverrun] := by decide
  have heval : _calculate_uptime_percentage [rowOverrun] 1 0 10 = 1100 := by
    unfold _calculate_uptime_percentage
    rw [hq, if_neg (List.cons_ne_nil rowOverrun [])]
    rw [List.foldl_cons, List.foldl_nil]
    norm_num [rowOverrun]
  exact ⟨by norm_num, heval, by rw [heval]; norm_num⟩

theorem uptime_percentage_bounds_witness :
    (∀ w ∈ Dag.aggregate_status 7200 [⟨1, 3700, -60⟩],
      0 ≤ w.uptime_percentage ∧ w.uptime_percentage ≤ 100) ∧
    (statusQuery [] 1 0 10 = [] →
      _calculate_uptime_percentage [] 1 0 10 = 0) ∧
    ((0 : Nat) < 10 ∧
     0 ≤ _calculate_uptime_percentage [rowInside] 1 0 10 ∧
     _calculate_uptime_percentage [rowInside] 1 0 10 ≤ 100) := by
  obtain ⟨h1, h2, h3⟩ := uptime_percentage_bounds
  refine ⟨fun w hm => h1 7200 [⟨1, 3700, -60⟩] w hm, h2 [] 1 0 10,
    by norm_num, ?_⟩
  have hact : (statusQuery [rowInside] 1 0 10).filter
      (fun r => decide (r.status = "active")) = [rowInside] := by decide
  have hb := h3 [rowInside] 1 0 10 (by norm_num) ?_ ?_
  · exact hb
  · rw [hact]
    intro r hr
    have : r = rowInside := List.mem_singleton.mp hr
    subst this
    decide
  · rw [hact]
    exact List.chain'_singleton rowInside

end Kpis
